import Mathlib

/-! Verification development for the sync-conflict pairing and review
engine of the file-diff plugin (source file src/main.ts), as a shallow
embedding in Lean. Pure fragments of the source are translated into
Lean functions; the stateful command callbacks are translated into
functions from their inputs (host collaborator behaviour passed as
explicit parameters) to the sequence of user-visible effects they
produce. -/

namespace FileDiff

/-- A vault file handle: base name with extension, the parent directory
path when the parent object is present, and the file extension. These
are the TFile attributes that main.ts reads. -/
structure TFile where
  name : String
  parent : Option String
  extension : String
deriving DecidableEq

/-- The directory key used for pairing: the parent path, with an absent
parent treated as the empty string (main.ts line 251). -/
def parentOf (f : TFile) : String := f.parent.getD ""

/-- An ASCII digit, as matched by the regex digit class in JS. -/
def isDigitCh (c : Char) : Bool := decide ('0' ≤ c) && decide (c ≤ '9')

/-- An uppercase ASCII letter or digit, the character class of the
device token in the sync-conflict pattern. -/
def isUpperAlnum (c : Char) : Bool :=
  isDigitCh c || (decide ('A' ≤ c) && decide (c ≤ 'Z'))

/-- Consume an exact literal from the front of the character list,
returning the remainder on success. -/
def consumeLit : List Char → List Char → Option (List Char)
  | [], l => some l
  | _ :: _, [] => none
  | c :: cs, d :: l => if c = d then consumeLit cs l else none

/-- Consume exactly n ASCII digits, returning the remainder. -/
def consumeDigits : Nat → List Char → Option (List Char)
  | 0, l => some l
  | _ + 1, [] => none
  | n + 1, c :: l => if isDigitCh c then consumeDigits n l else none

/-- Consume one or more uppercase alphanumerics, greedily: the run is
maximal, as for a greedy class with nothing after it in the pattern. -/
def consumeToken : List Char → Option (List Char)
  | [] => none
  | c :: l => if isUpperAlnum c then some (l.dropWhile isUpperAlnum) else none

/-- Attempt to match the sync-conflict regex of main.ts line 247
(a dot, the literal sync-conflict-, eight digits, a dash, six digits,
a dash, then one or more uppercase alphanumerics, greedy) at the head
of the list. On success return what follows the match. -/
def matchPatAt (l : List Char) : Option (List Char) :=
  (consumeLit (".sync-conflict-".data) l).bind fun l1 =>
  (consumeDigits 8 l1).bind fun l2 =>
  (consumeLit ['-'] l2).bind fun l3 =>
  (consumeDigits 6 l3).bind fun l4 =>
  (consumeLit ['-'] l4).bind fun l5 =>
  consumeToken l5

/-- JS String.replace with a non-global regex and an empty replacement
string: delete the leftmost match when there is one, otherwise return
the input unchanged (main.ts lines 246-249). -/
def replaceSyncConflict : List Char → List Char
  | [] => []
  | c :: l =>
    match matchPatAt (c :: l) with
    | some rest => rest
    | none => c :: replaceSyncConflict l

/-- The original-name derivation the matcher performs on a conflict
file name (main.ts lines 246-249). -/
def syncStrip (s : String) : String := String.mk (replaceSyncConflict s.data)

/-- Whether the sync-conflict regex matches at some position of the
list, i.e. whether the name matches the pattern in the JS sense. -/
def hasPatMatch : List Char → Bool
  | [] => false
  | c :: l => (matchPatAt (c :: l)).isSome || hasPatMatch l

/-- Whether the first list occurs at the front of the second. -/
def leadsWith : List Char → List Char → Bool
  | [], _ => true
  | _ :: _, [] => false
  | c :: cs, d :: l => (c == d) && leadsWith cs l

/-- JS String.includes: occurrence of the needle anywhere in the hay. -/
def hasInfix (needle : List Char) : List Char → Bool
  | [] => needle.isEmpty
  | d :: l => leadsWith needle (d :: l) || hasInfix needle l

/-- A matched sync-conflict pair (main.ts lines 236-241). -/
structure ConflictPair where
  originalFile : TFile
  syncConflictFile : TFile
deriving DecidableEq

/-- The literal marker tested with String.includes (main.ts line 245). -/
def syncConflictMarker : List Char := "sync-conflict".data

/-- The pure pairing pass of findSyncConflicts over a given file list
(main.ts lines 244-261): for each file whose name contains the marker,
derive the candidate original name and search the same list for a file
of that name in the same directory; emit a pair when found. -/
def findSyncConflictsFrom (files : List TFile) : List ConflictPair :=
  files.filterMap (fun file =>
    if hasInfix syncConflictMarker file.name.data then
      match files.find? (fun f =>
          f.name == syncStrip file.name && parentOf file == parentOf f) with
      | some originalFile => some ⟨originalFile, file⟩
      | none => none
    else none)

/-- A vault, holding the file list the host manages. -/
structure Vault where
  files : List TFile
deriving DecidableEq

/-- Host API getMarkdownFiles (used at main.ts line 242): the vault
files bearing the markdown extension. -/
def getMarkdownFiles (v : Vault) : List TFile :=
  v.files.filter (fun f => f.extension == "md")

/-- findSyncConflicts (main.ts lines 236-264): the pairing pass runs
over the markdown snapshot of the vault. -/
def findSyncConflicts (v : Vault) : List ConflictPair :=
  findSyncConflictsFrom (getMarkdownFiles v)

/-- How the risk-warning dialog interaction ends. -/
inductive ModalOutcome
  | accepted
  | cancelled
  | failed
deriving DecidableEq

/-- Modelled from the spec: the RiskyActionModal component lives in
src/components/modals/risky_action_modal.ts, which is outside the
provided sources. Per the spec, on acceptance the dialog invokes the
accept callback without an error, on failure it invokes it with an
error, and on dismissal or cancellation no acceptance happens and the
flag remains unset. Combined with showRiskyActionModal of main.ts
lines 201-220 (set the persisted flag and resolve on acceptance,
reject on error), this function returns the persisted-flag state after
the dialog interaction: the flag is set exactly on acceptance. -/
def showRiskyActionModalRun (flagSet : Bool) : ModalOutcome → Bool
  | .accepted => true
  | .cancelled => flagSet
  | .failed => flagSet

/-- The acknowledgment gate of main.ts lines 93-98 (also 62-67): when
the persisted flag is already set, proceed at once; otherwise show the
risk modal and re-check the flag, proceeding only when the re-check
sees it set. A rejected modal promise aborts the surrounding callback,
which is the same observable outcome as the failed re-check. Returns
the pair of the flag state after the call and whether the gated action
proceeds. -/
def mergeWarningGate (flagSet : Bool) (o : ModalOutcome) : Bool × Bool :=
  if flagSet then (true, true)
  else
    let after := showRiskyActionModalRun flagSet o
    (after, after)

/-- The sequential review loop of main.ts lines 102-117, as the log of
pairs a comparison view was opened for: pair i is shown, then the
continuation decision for position i is awaited; a false decision
breaks out of the loop. -/
def runReview (cont : Nat → Bool) : Nat → List ConflictPair → List ConflictPair
  | _, [] => []
  | i, p :: rest => p :: (if cont i then runReview cont (i + 1) rest else [])

/-- The find-sync-conflicts-and-merge command callback (main.ts lines
91-118) over a given queue: the gate runs first and a failed gate
reviews nothing; otherwise the queue is walked by the review loop.
The continuation decisions are passed as a function of the position. -/
def findSyncConflictsAndMergeCmd (flagSet : Bool) (o : ModalOutcome)
    (queue : List ConflictPair) (cont : Nat → Bool) : List ConflictPair :=
  if (mergeWarningGate flagSet o).2 then runReview cont 0 queue else []

/-- Modelled from the spec: the fixed view type identifier exported by
the differences view component (src/components/differences_view.ts is
outside the provided sources). Only its identity matters here. -/
def VIEW_TYPE_DIFFERENCES : String := "differences"

/-- The descriptor handed to the differences view: two files and the
merge flag. The continuation callback of the review workflow is
modelled separately, by the decision function of runReview. -/
structure ViewState where
  file1 : TFile
  file2 : TFile
  showMergeOption : Bool
deriving DecidableEq

/-- A workspace leaf, carrying its view type and view state. -/
structure WorkspaceLeaf where
  viewType : String
  state : ViewState
deriving DecidableEq

/-- Host API detachLeavesOfType (used at main.ts line 224): remove
every leaf of the given view type from the workspace. -/
def detachLeavesOfType (t : String) (ws : List WorkspaceLeaf) : List WorkspaceLeaf :=
  ws.filter (fun l => !(l.viewType == t))

/-- openDifferencesView (main.ts lines 222-234): detach all leaves of
the differences type, then create one new leaf of that type holding
the given state. -/
def openDifferencesView (s : ViewState) (ws : List WorkspaceLeaf) : List WorkspaceLeaf :=
  detachLeavesOfType VIEW_TYPE_DIFFERENCES ws ++ [⟨VIEW_TYPE_DIFFERENCES, s⟩]

/-- The parsed diff spec record: two path fields, each possibly absent
when the JSON object lacks that key (main.ts line 135). -/
structure DiffSpec where
  file1 : Option String
  file2 : Option String
deriving DecidableEq

/-- JS string interpolation of a possibly undefined value. -/
def showOpt : Option String → String
  | some s => s
  | none => "undefined"

/-- The hardcoded base path for diff spec files (main.ts line 15). -/
def DIFF_SPEC_BASE_PATH : String := "temp/obsidian-diff/diff-spec-"

/-- The spec location for an index (main.ts line 129). -/
def specPath (i : Nat) : String := DIFF_SPEC_BASE_PATH ++ toString i ++ ".json"

/-- The notice prefix carrying the index (main.ts lines 131-173). -/
def noticeIndex (i : Nat) : String := "File Diff Index " ++ toString i

/-- The first notice of the indexed command (main.ts line 132). -/
def loadingNotice (i : Nat) : String := noticeIndex i ++ ": Loading spec..."

/-- The notice after a successful read and parse (main.ts line 138). -/
def loadedNotice (i : Nat) : String := noticeIndex i ++ ": Files loaded"

/-- The catch-all error notice of the indexed command (main.ts line
172): the prefix followed by the message of whatever was thrown. -/
def genericErrorNotice (i : Nat) (msg : String) : String :=
  noticeIndex i ++ ": ERROR - " ++ msg

/-- The notice for an unresolved first path (main.ts line 148). -/
def file1NotFoundNotice (i : Nat) (p : Option String) : String :=
  noticeIndex i ++ ": ERROR - File 1 not found: " ++ showOpt p

/-- The notice for an unresolved second path (main.ts line 154). -/
def file2NotFoundNotice (i : Nat) (p : Option String) : String :=
  noticeIndex i ++ ": ERROR - File 2 not found: " ++ showOpt p

/-- The outcome of one indexed command invocation: the notices shown,
in order, and the view opened, when one was. The callback is total:
every throwing step is inside the try block whose catch shows a notice,
so no invocation crashes the process. -/
structure IndexedOutcome where
  notices : List String
  opened : Option ViewState
deriving DecidableEq

/-- The compare-indexed command callback for index i (main.ts lines
126-175). Host behaviour is passed in: readFile is the vault adapter
read (throwing modelled as the error case, carrying the thrown message),
parseJson is JSON.parse on the content (likewise), and resolve is
getAbstractFileByPath applied to the possibly absent path field. -/
def compareIndexed (i : Nat) (readFile : String → Except String String)
    (parseJson : String → Except String DiffSpec)
    (resolve : Option String → Option TFile) : IndexedOutcome :=
  match readFile (specPath i) with
  | .error m => ⟨[loadingNotice i, genericErrorNotice i m], none⟩
  | .ok content =>
    match parseJson content with
    | .error m => ⟨[loadingNotice i, genericErrorNotice i m], none⟩
    | .ok spec =>
      match resolve spec.file1 with
      | none =>
        ⟨[loadingNotice i, loadedNotice i, file1NotFoundNotice i spec.file1], none⟩
      | some f1 =>
        match resolve spec.file2 with
        | none =>
          ⟨[loadingNotice i, loadedNotice i, file2NotFoundNotice i spec.file2], none⟩
        | some f2 =>
          ⟨[loadingNotice i, loadedNotice i,
              noticeIndex i ++ ": Opening diff view...",
              noticeIndex i ++ ": Success!"],
            some ⟨f1, f2, false⟩⟩

/-- Sample original file, after the spec example. -/
def notesOriginal : TFile := ⟨"Notes.md", none, "md"⟩

/-- Sample sync-conflict file, after the spec example. -/
def notesConflict : TFile :=
  ⟨"Notes.md.sync-conflict-20240101-120000-ABC123", none, "md"⟩

/-- The pair the spec example expects. -/
def notesPair : ConflictPair := ⟨notesOriginal, notesConflict⟩

/-- Sample original for a conflict tagged before the extension. -/
def tagOriginal : TFile := ⟨"a.md", none, "md"⟩

/-- Sample conflict file with the tag before the markdown extension,
the shape the external sync tool produces for markdown notes. -/
def tagConflict : TFile := ⟨"a.sync-conflict-20240101-120000-ABC.md", none, "md"⟩

/-- A file whose name contains the marker without the full pattern. -/
def selfConflict : TFile := ⟨"sync-conflict.md", none, "md"⟩

lemma runReview_all_true (cont : Nat → Bool) (h : ∀ j, cont j = true) :
    ∀ (q : List ConflictPair) (i : Nat), runReview cont i q = q := by
  intro q
  induction q with
  | nil => intro i; rfl
  | cons p rest ih => intro i; simp [runReview, h i, ih (i + 1)]

lemma runReview_isTake (cont : Nat → Bool) :
    ∀ (q : List ConflictPair) (i : Nat),
      runReview cont i q = q.take (runReview cont i q).length := by
  intro q
  induction q with
  | nil => intro i; rfl
  | cons p rest ih =>
    intro i
    by_cases h : cont i = true
    · simp only [runReview, h, if_true, List.length_cons, List.take_succ_cons]
      exact congrArg (p :: ·) (ih (i + 1))
    · simp [runReview, h]

lemma runReview_length_le (cont : Nat → Bool) (m : Nat) (hm : cont m = false) :
    ∀ (q : List ConflictPair) (i : Nat), i ≤ m →
      (runReview cont i q).length ≤ m + 1 - i := by
  intro q
  induction q with
  | nil => intro i _; simp [runReview]
  | cons p rest ih =>
    intro i hi
    by_cases h : cont i = true
    · have hne : i ≠ m := by
        intro he
        rw [he, hm] at h
        exact Bool.noConfusion h
      have hrec := ih (i + 1) (by omega)
      simp only [runReview, h, if_true, List.length_cons]
      omega
    · simp only [runReview, h, if_false, Bool.false_eq_true, List.length_cons,
        List.length_nil]
      omega

/-- C2: with the acknowledgment gate passing and every continuation
decision true, the find-sync-conflicts-and-merge workflow opens a
comparison view for exactly the queued pairs, in queue order, and then
terminates (the review function is total and returns the full queue). -/
theorem C2_reviews_all_in_order (flagSet : Bool) (o : ModalOutcome)
    (queue : List ConflictPair) (cont : Nat → Bool)
    (hgate : (mergeWarningGate flagSet o).2 = true) (hcont : ∀ j, cont j = true) :
    findSyncConflictsAndMergeCmd flagSet o queue cont = queue := by
  unfold findSyncConflictsAndMergeCmd
  rw [if_pos hgate]
  exact runReview_all_true cont hcont queue 0

/-- C2 witness at a concrete gate state, queue and continuation. -/
theorem C2_reviews_all_in_order_witness :
    findSyncConflictsAndMergeCmd true ModalOutcome.accepted [notesPair]
      (fun _ => true) = [notesPair] :=
  C2_reviews_all_in_order true ModalOutcome.accepted [notesPair] (fun _ => true)
    rfl (fun _ => rfl)

/-- C3: when the continuation decision at position i is false, the
workflow reviews no pair beyond position i: the log of opened pairs is
a prefix of the queue of length at most i plus one. -/
theorem C3_stops_after_false (flagSet : Bool) (o : ModalOutcome)
    (queue : List ConflictPair) (cont : Nat → Bool) (i : Nat)
    (h : cont i = false) :
    (findSyncConflictsAndMergeCmd flagSet o queue cont).length ≤ i + 1 ∧
    findSyncConflictsAndMergeCmd flagSet o queue cont =
      queue.take (findSyncConflictsAndMergeCmd flagSet o queue cont).length := by
  unfold findSyncConflictsAndMergeCmd
  by_cases hg : (mergeWarningGate flagSet o).2 = true
  · rw [if_pos hg]
    refine ⟨?_, runReview_isTake cont queue 0⟩
    have := runReview_length_le cont i h queue 0 (Nat.zero_le i)
    omega
  · rw [if_neg hg]
    exact ⟨by simp, by simp⟩

/-- C3 witness: a queue of two pairs with a continuation that stops at
position zero reviews at most the first pair. -/
theorem C3_stops_after_false_witness :
    (findSyncConflictsAndMergeCmd true ModalOutcome.accepted
        [notesPair, notesPair] (fun _ => false)).length ≤ 0 + 1 ∧
    findSyncConflictsAndMergeCmd true ModalOutcome.accepted
        [notesPair, notesPair] (fun _ => false) =
      (List.take (findSyncConflictsAndMergeCmd true ModalOutcome.accepted
        [notesPair, notesPair] (fun _ => false)).length
        [notesPair, notesPair]) :=
  C3_stops_after_false true ModalOutcome.accepted [notesPair, notesPair]
    (fun _ => false) 0 rfl

/-- C7: when the risk dialog is dismissed, cancelled or fails, the
acknowledgment gate does not let the action proceed, the persisted
flag stays unset, and the gated merge workflow reviews nothing. -/
theorem C7_gate_false_on_dismiss_or_failure (o : ModalOutcome)
    (queue : List ConflictPair) (cont : Nat → Bool)
    (h : o = ModalOutcome.cancelled ∨ o = ModalOutcome.failed) :
    mergeWarningGate false o = (false, false) ∧
    findSyncConflictsAndMergeCmd false o queue cont = [] := by
  rcases h with h | h <;> subst h <;> exact ⟨rfl, rfl⟩

/-- C7 witness at the cancelled outcome. -/
theorem C7_gate_false_on_dismiss_or_failure_witness :
    mergeWarningGate false ModalOutcome.cancelled = (false, false) ∧
    findSyncConflictsAndMergeCmd false ModalOutcome.cancelled [notesPair]
      (fun _ => true) = [] :=
  C7_gate_false_on_dismiss_or_failure ModalOutcome.cancelled [notesPair]
    (fun _ => true) (Or.inl rfl)

/-- C8: opening two comparisons in succession leaves exactly one leaf
of the differences type in the workspace, and it holds the second
descriptor: the first view is discarded by the unconditional detach. -/
theorem C8_single_view_second_descriptor (ws : List WorkspaceLeaf)
    (s1 s2 : ViewState) :
    (openDifferencesView s2 (openDifferencesView s1 ws)).filter
        (fun l => l.viewType == VIEW_TYPE_DIFFERENCES) =
      [⟨VIEW_TYPE_DIFFERENCES, s2⟩] := by
  simp [openDifferencesView, detachLeavesOfType, List.filter_append,
    List.filter_filter]

lemma sideNotices_distinct (i : Nat) (p q : Option String) :
    file1NotFoundNotice i p ≠ file2NotFoundNotice i q := by
  intro h
  unfold file1NotFoundNotice file2NotFoundNotice at h
  have hd := congrArg String.data h
  simp only [String.data_append, List.append_assoc] at hd
  have h2 := List.append_cancel_left hd
  have h3 := (List.append_inj h2 (by decide)).1
  exact absurd h3 (by decide)

/-- C5: after a successful read and parse, an unresolved path on either
side makes the indexed command show the not-found notice for exactly
that side, naming the offending path, and open no view; the two side
notices are distinct for every index and path pair. -/
theorem C5_not_found_aborts (i : Nat) (hle : i ≤ 9)
    (readFile : String → Except String String)
    (parseJson : String → Except String DiffSpec)
    (resolve : Option String → Option TFile) (c : String) (spec : DiffSpec)
    (hr : readFile (specPath i) = Except.ok c)
    (hp : parseJson c = Except.ok spec) :
    (resolve spec.file1 = none →
      compareIndexed i readFile parseJson resolve =
        ⟨[loadingNotice i, loadedNotice i, file1NotFoundNotice i spec.file1],
          none⟩) ∧
    (∀ f1, resolve spec.file1 = some f1 → resolve spec.file2 = none →
      compareIndexed i readFile parseJson resolve =
        ⟨[loadingNotice i, loadedNotice i, file2NotFoundNotice i spec.file2],
          none⟩) ∧
    (∀ p q, file1NotFoundNotice i p ≠ file2NotFoundNotice i q) := by
  refine ⟨fun h1 => ?_, fun f1 h1 h2 => ?_, fun p q => sideNotices_distinct i p q⟩
  · simp [compareIndexed, hr, hp, h1]
  · simp [compareIndexed, hr, hp, h1, h2]

/-- C5 witness: index three, a spec whose second path resolves to
nothing, reporting the second side and opening no view. -/
theorem C5_not_found_aborts_witness :
    ((fun _ => none : Option String → Option TFile) (some "b.md") = none →
      compareIndexed 3 (fun _ => Except.ok "content")
          (fun _ => Except.ok ⟨some "a.md", some "b.md"⟩) (fun _ => none) =
        ⟨[loadingNotice 3, loadedNotice 3, file1NotFoundNotice 3 (some "a.md")],
          none⟩) ∧
    (∀ f1, (fun _ => none : Option String → Option TFile) (some "a.md") = some f1 →
      (fun _ => none : Option String → Option TFile) (some "b.md") = none →
      compareIndexed 3 (fun _ => Except.ok "content")
          (fun _ => Except.ok ⟨some "a.md", some "b.md"⟩) (fun _ => none) =
        ⟨[loadingNotice 3, loadedNotice 3, file2NotFoundNotice 3 (some "b.md")],
          none⟩) ∧
    (∀ p q, file1NotFoundNotice 3 p ≠ file2NotFoundNotice 3 q) :=
  C5_not_found_aborts 3 (by decide) (fun _ => Except.ok "content")
    (fun _ => Except.ok ⟨some "a.md", some "b.md"⟩) (fun _ => none) "content"
    ⟨some "a.md", some "b.md"⟩ rfl rfl

/-- C6 counterexample: a read failure and a parse failure with the same
thrown message produce byte-identical user-visible outcomes, so the two
failure modes are not reported with distinct, step-specific messages:
both go through the one catch-all handler of the indexed command. -/
theorem C6_counterexample :
    compareIndexed 3 (fun _ => Except.error "boom")
        (fun _ => Except.ok ⟨some "a.md", some "b.md"⟩) (fun _ => none) =
      compareIndexed 3 (fun _ => Except.ok "x")
        (fun _ => Except.error "boom") (fun _ => none) ∧
    (compareIndexed 3 (fun _ => Except.error "boom")
        (fun _ => Except.ok ⟨some "a.md", some "b.md"⟩) (fun _ => none)).notices =
      [loadingNotice 3, genericErrorNotice 3 "boom"] :=
  ⟨rfl, rfl⟩

/-- C6 amended: a failure to read the spec and a failure to parse its
content are each caught and reported, without crashing, by the shared
handler notice built from the index and the thrown message; the two
outcomes differ only insofar as the underlying messages differ, and no
view is opened. -/
theorem C6_failures_reported (i : Nat) (hle : i ≤ 9)
    (readFile : String → Except String String)
    (parseJson : String → Except String DiffSpec)
    (resolve : Option String → Option TFile) (m c : String) :
    (readFile (specPath i) = Except.error m →
      compareIndexed i readFile parseJson resolve =
        ⟨[loadingNotice i, genericErrorNotice i m], none⟩) ∧
    (readFile (specPath i) = Except.ok c → parseJson c = Except.error m →
      compareIndexed i readFile parseJson resolve =
        ⟨[loadingNotice i, genericErrorNotice i m], none⟩) := by
  refine ⟨fun h1 => ?_, fun h1 h2 => ?_⟩
  · simp [compareIndexed, h1]
  · simp [compareIndexed, h1, h2]

/-- C6 witness: a concrete read failure at index three is reported with
the shared handler notice and opens no view. -/
theorem C6_failures_reported_witness :
    compareIndexed 3 (fun _ => Except.error "boom")
        (fun _ => Except.ok ⟨some "a.md", some "b.md"⟩) (fun _ => some notesOriginal) =
      ⟨[loadingNotice 3, genericErrorNotice 3 "boom"], none⟩ :=
  (C6_failures_reported 3 (by decide) (fun _ => Except.error "boom")
      (fun _ => Except.ok ⟨some "a.md", some "b.md"⟩) (fun _ => some notesOriginal)
      "boom" "x").1 rfl

/-- C10: well-formed content whose parsed spec lacks a path field is
not treated as a malformed spec: the parse step succeeds, the absent
field resolves to nothing (host resolution of an absent path yields
nothing), and the command reports the not-found failure for that side,
naming the interpolated undefined path, and opens no view. -/
theorem C10_missing_field_reported_as_not_found (i : Nat) (hle : i ≤ 9)
    (readFile : String → Except String String)
    (parseJson : String → Except String DiffSpec)
    (resolve : Option String → Option TFile) (c : String) (spec : DiffSpec)
    (hr : readFile (specPath i) = Except.ok c)
    (hp : parseJson c = Except.ok spec)
    (hres : resolve none = none) :
    (spec.file1 = none →
      compareIndexed i readFile parseJson resolve =
        ⟨[loadingNotice i, loadedNotice i, file1NotFoundNotice i none], none⟩ ∧
      file1NotFoundNotice i none =
        noticeIndex i ++ ": ERROR - File 1 not found: " ++ "undefined") ∧
    (∀ p1 f1, spec.file1 = some p1 → resolve (some p1) = some f1 →
      spec.file2 = none →
      compareIndexed i readFile parseJson resolve =
        ⟨[loadingNotice i, loadedNotice i, file2NotFoundNotice i none], none⟩ ∧
      file2NotFoundNotice i none =
        noticeIndex i ++ ": ERROR - File 2 not found: " ++ "undefined") := by
  refine ⟨fun h1 => ⟨?_, rfl⟩, fun p1 f1 h1 h2 h3 => ⟨?_, rfl⟩⟩
  · simp [compareIndexed, hr, hp, h1, hres]
  · simp [compareIndexed, hr, hp, h1, h2, h3, hres]

/-- C10 witness: a spec with only the second path present yields the
first-side not-found outcome naming the undefined path. -/
theorem C10_missing_field_reported_as_not_found_witness :
    ((⟨none, some "b.md"⟩ : DiffSpec).file1 = none →
      compareIndexed 7 (fun _ => Except.ok "content")
          (fun _ => Except.ok ⟨none, some "b.md"⟩) (fun _ => none) =
        ⟨[loadingNotice 7, loadedNotice 7, file1NotFoundNotice 7 none], none⟩ ∧
      file1NotFoundNotice 7 none =
        noticeIndex 7 ++ ": ERROR - File 1 not found: " ++ "undefined") ∧
    (∀ p1 f1, (⟨none, some "b.md"⟩ : DiffSpec).file1 = some p1 →
      (fun _ => none : Option String → Option TFile) (some p1) = some f1 →
      (⟨none, some "b.md"⟩ : DiffSpec).file2 = none →
      compareIndexed 7 (fun _ => Except.ok "content")
          (fun _ => Except.ok ⟨none, some "b.md"⟩) (fun _ => none) =
        ⟨[loadingNotice 7, loadedNotice 7, file2NotFoundNotice 7 none], none⟩ ∧
      file2NotFoundNotice 7 none =
        noticeIndex 7 ++ ": ERROR - File 2 not found: " ++ "undefined") :=
  C10_missing_field_reported_as_not_found 7 (by decide)
    (fun _ => Except.ok "content") (fun _ => Except.ok ⟨none, some "b.md"⟩)
    (fun _ => none) "content" ⟨none, some "b.md"⟩ rfl rfl rfl

lemma consumeLit_suffix (pat : List Char) :
    ∀ l r, consumeLit pat l = some r → ∃ m, l = m ++ r := by
  induction pat with
  | nil =>
    intro l r h
    exact ⟨[], by simpa [consumeLit] using Option.some.inj h⟩
  | cons c cs ih =>
    intro l r h
    cases l with
    | nil => exact Option.noConfusion h
    | cons d l' =>
      unfold consumeLit at h
      by_cases hc : c = d
      · rw [if_pos hc] at h
        obtain ⟨m, hm⟩ := ih l' r h
        exact ⟨d :: m, by simp [hm]⟩
      · rw [if_neg hc] at h
        exact Option.noConfusion h

lemma consumeDigits_suffix :
    ∀ (n : Nat) (l r : List Char), consumeDigits n l = some r → ∃ m, l = m ++ r := by
  intro n
  induction n with
  | zero =>
    intro l r h
    exact ⟨[], by simpa [consumeDigits] using Option.some.inj h⟩
  | succ k ih =>
    intro l r h
    cases l with
    | nil => exact Option.noConfusion h
    | cons d l' =>
      unfold consumeDigits at h
      by_cases hd : isDigitCh d = true
      · rw [if_pos hd] at h
        obtain ⟨m, hm⟩ := ih l' r h
        exact ⟨d :: m, by simp [hm]⟩
      · rw [if_neg hd] at h
        exact Option.noConfusion h

lemma consumeToken_suffix (l r : List Char) (h : consumeToken l = some r) :
    ∃ m, l = m ++ r := by
  cases l with
  | nil => exact Option.noConfusion h
  | cons c l' =>
    simp only [consumeToken] at h
    by_cases hc : isUpperAlnum c = true
    · rw [if_pos hc] at h
      refine ⟨c :: l'.takeWhile isUpperAlnum, ?_⟩
      rw [← Option.some.inj h]
      simp [List.takeWhile_append_dropWhile]
    · rw [if_neg hc] at h
      exact Option.noConfusion h

lemma matchPatAt_suffix (l r : List Char) (h : matchPatAt l = some r) :
    ∃ m, l = m ++ r := by
  unfold matchPatAt at h
  obtain ⟨l1, h1, h⟩ := Option.bind_eq_some.mp h
  obtain ⟨l2, h2, h⟩ := Option.bind_eq_some.mp h
  obtain ⟨l3, h3, h⟩ := Option.bind_eq_some.mp h
  obtain ⟨l4, h4, h⟩ := Option.bind_eq_some.mp h
  obtain ⟨l5, h5, h⟩ := Option.bind_eq_some.mp h
  obtain ⟨m1, hm1⟩ := consumeLit_suffix _ _ _ h1
  obtain ⟨m2, hm2⟩ := consumeDigits_suffix _ _ _ h2
  obtain ⟨m3, hm3⟩ := consumeLit_suffix _ _ _ h3
  obtain ⟨m4, hm4⟩ := consumeDigits_suffix _ _ _ h4
  obtain ⟨m5, hm5⟩ := consumeLit_suffix _ _ _ h5
  obtain ⟨m6, hm6⟩ := consumeToken_suffix _ _ h
  refine ⟨m1 ++ m2 ++ m3 ++ m4 ++ m5 ++ m6, ?_⟩
  simp [hm1, hm2, hm3, hm4, hm5, hm6]

/-- The JS first-match replacement, characterized: either no position
of the list matches the pattern and the list is returned unchanged, or
the list splits as pre, mid, post with the leftmost match mid deleted
from the result and no match starting inside pre. -/
lemma replaceSyncConflict_spec (l : List Char) :
    (replaceSyncConflict l = l ∧ hasPatMatch l = false) ∨
    ∃ pre mid post, l = pre ++ mid ++ post ∧
      replaceSyncConflict l = pre ++ post ∧
      matchPatAt (mid ++ post) = some post ∧
      ∀ k, k < pre.length → matchPatAt (List.drop k l) = none := by
  induction l with
  | nil => exact Or.inl ⟨rfl, rfl⟩
  | cons c t ih =>
    cases hm : matchPatAt (c :: t) with
    | some rest =>
      right
      obtain ⟨mid, hmid⟩ := matchPatAt_suffix _ _ hm
      refine ⟨[], mid, rest, by simpa using hmid, ?_, ?_,
        fun k hk => absurd hk (by simp)⟩
      · simp [replaceSyncConflict, hm]
      · rw [← hmid]
        exact hm
    | none =>
      rcases ih with ⟨hrep, hmatch⟩ | ⟨pre, mid, post, h1, h2, h3, h4⟩
      · left
        constructor
        · simp [replaceSyncConflict, hm, hrep]
        · simp [hasPatMatch, hm, hmatch]
      · right
        refine ⟨c :: pre, mid, post, by simp [h1], ?_, h3, ?_⟩
        · simp [replaceSyncConflict, hm, h2]
        · intro k hk
          cases k with
          | zero => exact hm
          | succ j =>
            simp only [List.drop_succ_cons]
            exact h4 j (by simpa using hk)

/-- C4 amended: for every name (in particular every name containing
the sync-conflict marker), the candidate original name is derived by
deleting the leftmost segment of the name matching the pattern,
wherever in the name it occurs, not necessarily a trailing one; when
no segment matches, the name is left unchanged. -/
theorem C4_strip_removes_first_match (s : String) :
    (syncStrip s = s ∧ hasPatMatch s.data = false) ∨
    ∃ pre mid post, s.data = pre ++ mid ++ post ∧
      (syncStrip s).data = pre ++ post ∧
      matchPatAt (mid ++ post) = some post ∧
      ∀ k, k < pre.length → matchPatAt (List.drop k s.data) = none := by
  rcases replaceSyncConflict_spec s.data with ⟨hrep, hmatch⟩ | hsplit
  · left
    exact ⟨congrArg String.mk hrep, hmatch⟩
  · right
    exact hsplit

/-- C4 counterexample: an emitted pair whose conflict name carries the
tag before the markdown extension. The matcher pairs it with a.md, yet
a.md is not obtainable by removing a trailing segment of the conflict
name: the derived name is not even a leading part of the conflict name,
since the deleted match sits in the middle. -/
theorem C4_counterexample :
    hasInfix syncConflictMarker tagConflict.name.data = true ∧
    findSyncConflictsFrom [tagOriginal, tagConflict] = [⟨tagOriginal, tagConflict⟩] ∧
    syncStrip tagConflict.name = tagOriginal.name ∧
    ¬ ∃ t : List Char,
        tagConflict.name.data = (syncStrip tagConflict.name).data ++ t := by
  refine ⟨by decide, by decide, by decide, ?_⟩
  rintro ⟨t, ht⟩
  have hlen : ((syncStrip tagConflict.name).data).length = 4 := by decide
  have h4 : (tagConflict.name.data).take 4 = (syncStrip tagConflict.name).data := by
    rw [ht, ← hlen, List.take_left]
  have h5 : (tagConflict.name.data).take 4 = "a.sy".data := by decide
  rw [h5] at h4
  exact absurd h4 (by decide)

/-- C1 amended: every pair emitted by the pairing pass has a conflict
name containing the literal sync-conflict marker (the pattern itself
need not match anywhere, see the counterexample), a derived name equal
to the original name, and equal parent directories, absent parents on
either side read as the empty string. -/
theorem C1_pair_invariants (files : List TFile) (p : ConflictPair)
    (hp : p ∈ findSyncConflictsFrom files) :
    hasInfix syncConflictMarker p.syncConflictFile.name.data = true ∧
    syncStrip p.syncConflictFile.name = p.originalFile.name ∧
    parentOf p.syncConflictFile = parentOf p.originalFile := by
  unfold findSyncConflictsFrom at hp
  rw [List.mem_filterMap] at hp
  obtain ⟨file, _, hsome⟩ := hp
  by_cases hmark : hasInfix syncConflictMarker file.name.data = true
  · rw [if_pos hmark] at hsome
    rcases hfind : files.find?
        (fun f => f.name == syncStrip file.name && parentOf file == parentOf f)
      with _ | orig
    · rw [hfind] at hsome
      exact Option.noConfusion hsome
    · rw [hfind] at hsome
      have hpred := List.find?_some hfind
      rw [Bool.and_eq_true] at hpred
      obtain ⟨hname, hpar⟩ := hpred
      rw [← Option.some.inj hsome]
      exact ⟨hmark, (beq_iff_eq.mp hname).symm, beq_iff_eq.mp hpar⟩
  · rw [if_neg hmark] at hsome
    exact Option.noConfusion hsome

/-- C1 witness at the spec example: the two-file vault snapshot yields
the expected pair, which satisfies the amended invariants. -/
theorem C1_pair_invariants_witness :
    hasInfix syncConflictMarker notesPair.syncConflictFile.name.data = true ∧
    syncStrip notesPair.syncConflictFile.name = notesPair.originalFile.name ∧
    parentOf notesPair.syncConflictFile = parentOf notesPair.originalFile :=
  C1_pair_invariants [notesOriginal, notesConflict] notesPair (by decide)

/-- C1 counterexample: a file whose name contains the marker but which
the pattern matches nowhere is paired with itself, so the emitted pair
violates the claimed invariant that the conflict name matches the
sync-conflict suffix pattern. -/
theorem C1_counterexample :
    findSyncConflictsFrom [selfConflict] = [⟨selfConflict, selfConflict⟩] ∧
    hasInfix syncConflictMarker selfConflict.name.data = true ∧
    hasPatMatch selfConflict.name.data = false := by
  decide

/-- C9: the matcher snapshot comes from the markdown files of the
vault only, so both members of every emitted pair bear the markdown
extension; a non-markdown conflict file or original never contributes
a pair even when a same-directory counterpart exists. -/
theorem C9_markdown_only (v : Vault) (p : ConflictPair)
    (hp : p ∈ findSyncConflicts v) :
    p.syncConflictFile.extension = "md" ∧ p.originalFile.extension = "md" := by
  unfold findSyncConflicts findSyncConflictsFrom at hp
  rw [List.mem_filterMap] at hp
  obtain ⟨file, hfile, hsome⟩ := hp
  by_cases hmark : hasInfix syncConflictMarker file.name.data = true
  · rw [if_pos hmark] at hsome
    rcases hfind : (getMarkdownFiles v).find?
        (fun f => f.name == syncStrip file.name && parentOf file == parentOf f)
      with _ | orig
    · rw [hfind] at hsome
      exact Option.noConfusion hsome
    · rw [hfind] at hsome
      have horig : orig ∈ getMarkdownFiles v := List.mem_of_find?_eq_some hfind
      rw [← Option.some.inj hsome]
      constructor
      · exact beq_iff_eq.mp (List.mem_filter.mp hfile).2
      · exact beq_iff_eq.mp (List.mem_filter.mp horig).2
  · rw [if_neg hmark] at hsome
    exact Option.noConfusion hsome

/-- C9 witness: a two-file markdown vault yields the expected pair,
whose members both carry the markdown extension. -/
theorem C9_markdown_only_witness :
    notesPair.syncConflictFile.extension = "md" ∧
    notesPair.originalFile.extension = "md" :=
  C9_markdown_only ⟨[notesOriginal, notesConflict]⟩ notesPair (by decide)

end FileDiff
